import Mathlib

/-!
Shallow embedding of the status-code example HTTP server.

Source layout:
  - the dispatcher (`onRequest`, the route table `urlStruct`, query flattening
    via `Object.fromEntries(parsedUrl.searchParams)`) comes from the unnamed
    server entry file;
  - the JSON handlers (`respondJSON`, `success`, `badRequest`, `notFound`)
    come from `src/jsonResponses.js`.

The node runtime pieces are modelled at their interfaces: a parsed request
carries a pathname and the ordered list of query entries (the output of
`new URL(...)` / `searchParams`), and a response object records the calls
made on it (`writeHead`, `write`, `end`) as a list of events. The fallible
URL construction itself — `new URL(request.url, protocol://host)` throws a
TypeError on an invalid base, leaving the dispatcher with no response — is
modelled by `parseURL` and `onRequestRaw` over raw requests.
-/

/-- An incoming HTTP request as the runtime hands it to `onRequest`:
the method, the pathname produced by `new URL(request.url, base)`, and the
decoded `searchParams` entries in their order of appearance. -/
structure Request where
  method : String
  path : String
  searchParams : List (String × String)
  deriving DecidableEq, Repr

/-- The request after the dispatcher stores the flattened query object on it
(`request.query = Object.fromEntries(parsedUrl.searchParams)`), which is what
the handlers receive. -/
structure AugRequest where
  method : String
  path : String
  query : List (String × String)
  deriving DecidableEq, Repr

/-- The header object passed to `response.writeHead` by the handlers. -/
structure Headers where
  contentType : String
  contentLength : Nat
  deriving DecidableEq, Repr

/-- One call the server code makes on the node `response` object. -/
inductive RespEvent where
  | writeHead (status : Nat) (headers : Headers)
  | write (content : String)
  | endResp
  deriving DecidableEq, Repr

/-- The payload objects built by the handlers: a `message` field and an
optional `id` field, in that insertion order. -/
structure JsonBody where
  message : String
  id : Option String
  deriving DecidableEq, Repr

/-- Lower 4 bits to a hex digit character. -/
def hexDigit (n : Nat) : Char :=
  if n < 10 then Char.ofNat (48 + n) else Char.ofNat (87 + n)

/-- Four-digit lowercase hex rendering, as in a JSON `\uXXXX` escape. -/
def hex4 (n : Nat) : String :=
  String.mk [hexDigit (n / 4096 % 16), hexDigit (n / 256 % 16),
    hexDigit (n / 16 % 16), hexDigit (n % 16)]

/-- Escaping of a single character inside a JSON string literal, following
`JSON.stringify`: quote and backslash get a backslash escape, the named
control characters get their two-character escapes, the remaining control
characters get `\uXXXX`, and everything else is emitted verbatim. -/
def jsonEscapeChar (c : Char) : String :=
  if c = '"' then "\\\""
  else if c = '\\' then "\\\\"
  else if c = '\x08' then "\\b"
  else if c = '\x09' then "\\t"
  else if c = '\x0a' then "\\n"
  else if c = '\x0c' then "\\f"
  else if c = '\x0d' then "\\r"
  else if c.toNat < 32 then "\\u" ++ hex4 c.toNat
  else String.singleton c

/-- `JSON.stringify` escaping of the characters of a string. -/
def jsonEscape (s : String) : String :=
  String.join (s.data.map jsonEscapeChar)

/-- A JSON string literal. -/
def jsonStringLit (s : String) : String :=
  "\"" ++ jsonEscape s ++ "\""

/-- `JSON.stringify` of the handler payload objects: key order is insertion
order, so `message` first and, when present, `id` second. -/
def stringifyBody (b : JsonBody) : String :=
  match b.id with
  | none => "\x7b\"message\":" ++ jsonStringLit b.message ++ "\x7d"
  | some i =>
      "\x7b\"message\":" ++ jsonStringLit b.message ++
        ",\"id\":" ++ jsonStringLit i ++ "\x7d"

/-- Number of bytes of the UTF-8 encoding of one scalar value, as counted by
`Buffer.byteLength(s, 'utf8')` on a well-formed string. -/
def utf8CharLen (c : Char) : Nat :=
  if c.toNat < 128 then 1
  else if c.toNat < 2048 then 2
  else if c.toNat < 65536 then 3
  else 4

/-- `Buffer.byteLength(s, 'utf8')`: the byte length of the UTF-8 encoding,
not the character count. -/
def byteLength (s : String) : Nat :=
  s.data.foldl (fun n c => n + utf8CharLen c) 0

/-- `respondJSON(request, response, status, object)` from
`src/jsonResponses.js`: stringify the object, write the head with content
type `application/json` and the utf8 byte length of the content, write the
content, and end the response. -/
def respondJSON (request : AugRequest) (status : Nat) (object : JsonBody) :
    List RespEvent :=
  let content := stringifyBody object
  [RespEvent.writeHead status ⟨"application/json", byteLength content⟩,
   RespEvent.write content,
   RespEvent.endResp]

/-- `success` from `src/jsonResponses.js`: respond 200 with the fixed
message object. -/
def success (request : AugRequest) : List RespEvent :=
  respondJSON request 200 ⟨"This is a successful response", none⟩

/-- JS property lookup on the flattened query object, modelled on its
association-list representation (first matching key, and the flattening
keeps keys unique). `none` stands for `undefined`. -/
def getQ : List (String × String) → String → Option String
  | [], _ => none
  | (k₀, v) :: rest, k => if k₀ = k then some v else getQ rest k

/-- JS truthiness of `request.query.valid`: `undefined` and the empty string
are falsy, every other string is truthy. -/
def jsTruthy : Option String → Bool
  | none => false
  | some s => s != ""

/-- `badRequest` from `src/jsonResponses.js`: when
`!request.query.valid || request.query.valid !== 'true'`, switch the message,
add the id `badRequest` and respond 400; otherwise respond 200 with the
initial message object. -/
def badRequest (request : AugRequest) : List RespEvent :=
  if !jsTruthy (getQ request.query "valid")
      || getQ request.query "valid" != some "true" then
    respondJSON request 400
      ⟨"Missing valid query parameter set to true", some "badRequest"⟩
  else
    respondJSON request 200
      ⟨"This request has the required parameters", none⟩

/-- `notFound` from `src/jsonResponses.js`: respond 404 with the fixed
message and the id `notFound`. -/
def notFound (request : AugRequest) : List RespEvent :=
  respondJSON request 404
    ⟨"The page you are looking for was not found.", some "notFound"⟩

/-- Modelled from the spec: `htmlResponses.js` is not under `src/`.
The spec describes its `getIndex` handler as serving the static browser
client page, which is presentation glue outside the core contract; the page
text itself `clientPage` is therefore a stand-in string, and no claim
depends on it, only on the response not being JSON. -/
def clientPage : String := "<html><body>client page</body></html>"

/-- Modelled from the spec: `getIndex` from the missing `htmlResponses.js`
writes one 200 response whose body is the static HTML client page with an
HTML content type. -/
def getIndex (request : AugRequest) : List RespEvent :=
  [RespEvent.writeHead 200 ⟨"text/html", byteLength clientPage⟩,
   RespEvent.write clientPage,
   RespEvent.endResp]

/-- The route table `urlStruct` of the server entry file, as JS object
lookup: the three path routes plus the `notFound` key, and `none` for a key
with no own property (`undefined`). -/
def urlStruct (key : String) : Option (AugRequest → List RespEvent) :=
  if key = "/" then some getIndex
  else if key = "/success" then some success
  else if key = "/badRequest" then some badRequest
  else if key = "notFound" then some notFound
  else none

/-- `if (urlStruct[parsedUrl.pathname]) \x7b ... \x7d else \x7b
urlStruct.notFound(...) \x7d`: the handler the dispatcher invokes for a
pathname (every handler is a function, hence truthy). -/
def selectedHandler (path : String) : AugRequest → List RespEvent :=
  match urlStruct path with
  | some handler => handler
  | none => notFound

/-- One step of `Object.fromEntries`: set a property on the accumulated
object, overwriting the value in place when the key already exists and
appending a fresh property otherwise. -/
def setEntry : List (String × String) → String → String → List (String × String)
  | [], k, v => [(k, v)]
  | (k₀, v₀) :: rest, k, v =>
      if k₀ = k then (k, v) :: rest else (k₀, v₀) :: setEntry rest k v

/-- `Object.fromEntries(parsedUrl.searchParams)`: fold the ordered query
entries into an object, later entries overwriting earlier ones. -/
def fromEntries (entries : List (String × String)) : List (String × String) :=
  entries.foldl (fun acc kv => setEntry acc kv.1 kv.2) []

/-- The dispatcher augments the request with the flattened query before the
handler call. -/
def augmentReq (r : Request) : AugRequest :=
  ⟨r.method, r.path, fromEntries r.searchParams⟩

/-- `onRequest` from the server entry file, from the point where the URL
parse has succeeded (the fallible `new URL` step itself is `parseURL` and
`onRequestRaw` below): flatten the query onto the request and invoke the
routed handler, or `notFound` when the lookup misses. -/
def onRequest (request : Request) : List RespEvent :=
  selectedHandler request.path (augmentReq request)

/-- Serving a sequence of requests; the server keeps no state between
requests, so this is just `onRequest` on each. -/
def serveMany : List Request → List (List RespEvent)
  | [] => []
  | r :: rs => onRequest r :: serveMany rs

/-- The status passed to the first `writeHead` of a response, when any. -/
def statusOf (events : List RespEvent) : Option Nat :=
  events.findSome? fun e =>
    match e with
    | RespEvent.writeHead s _ => some s
    | _ => none

/-- The headers passed to the first `writeHead` of a response, when any. -/
def headersOf (events : List RespEvent) : Option Headers :=
  events.findSome? fun e =>
    match e with
    | RespEvent.writeHead _ h => some h
    | _ => none

/-- The full body of a response: the concatenation of the written chunks. -/
def bodyOf (events : List RespEvent) : String :=
  events.foldl
    (fun acc e =>
      match e with
      | RespEvent.write c => acc ++ c
      | _ => acc) ""

/-- Whether `pat` occurs at the start of `s` (character lists). -/
def startsWithL : List Char → List Char → Bool
  | [], _ => true
  | _ :: _, [] => false
  | p :: ps, c :: cs => p == c && startsWithL ps cs

/-- Whether `pat` occurs anywhere in `s` (character lists). -/
def containsL (pat : List Char) : List Char → Bool
  | [] => startsWithL pat []
  | c :: cs => startsWithL pat (c :: cs) || containsL pat cs

/-- Whether the string `pat` occurs as a contiguous substring of `s`. -/
def strContains (s pat : String) : Bool :=
  containsL pat.data s.data

/-- Number of entries of an association list carrying a given key. -/
def countKey : List (String × String) → String → Nat
  | [], _ => 0
  | (k₀, _) :: rest, k => (if k₀ = k then 1 else 0) + countKey rest k

/-- The value of the last entry of `l` with key `k`, when one exists:
the reference semantics of last-value-wins flattening. -/
def lastVal : List (String × String) → String → Option String
  | [], _ => none
  | (k₀, v₀) :: rest, k =>
      match lastVal rest k with
      | some v => some v
      | none => if k₀ = k then some v₀ else none

theorem empty_string_append (s : String) : "" ++ s = s := by
  cases s
  rfl

theorem statusOf_respondJSON (r : AugRequest) (s : Nat) (o : JsonBody) :
    statusOf (respondJSON r s o) = some s := rfl

theorem bodyOf_respondJSON (r : AugRequest) (s : Nat) (o : JsonBody) :
    bodyOf (respondJSON r s o) = stringifyBody o :=
  empty_string_append (stringifyBody o)

theorem selectedHandler_miss (p : String) (h1 : p ≠ "/") (h2 : p ≠ "/success")
    (h3 : p ≠ "/badRequest") : selectedHandler p = notFound := by
  unfold selectedHandler urlStruct
  rw [if_neg h1, if_neg h2, if_neg h3]
  by_cases h4 : p = "notFound"
  · rw [if_pos h4]
  · rw [if_neg h4]

theorem badRequest_valid (r : AugRequest) (h : getQ r.query "valid" = some "true") :
    badRequest r =
      respondJSON r 200 ⟨"This request has the required parameters", none⟩ := by
  unfold badRequest
  rw [h]
  rfl

theorem badRequest_invalid (r : AugRequest)
    (h : getQ r.query "valid" ≠ some "true") :
    badRequest r =
      respondJSON r 400
        ⟨"Missing valid query parameter set to true", some "badRequest"⟩ := by
  unfold badRequest
  cases hq : getQ r.query "valid" with
  | none => rfl
  | some s =>
    rw [hq] at h
    have hs : s ≠ "true" := fun e => h (by rw [e])
    by_cases he : s = ""
    · subst he; rfl
    · simp [jsTruthy, he, hs]

theorem onRequest_shape (req : Request) :
    ∃ s hd c, onRequest req =
      [RespEvent.writeHead s hd, RespEvent.write c, RespEvent.endResp] := by
  by_cases h1 : req.path = "/"
  · have he : onRequest req = getIndex (augmentReq req) := by
      unfold onRequest
      rw [h1]
      rfl
    rw [he]
    exact ⟨200, _, _, rfl⟩
  · by_cases h2 : req.path = "/success"
    · have he : onRequest req = success (augmentReq req) := by
        unfold onRequest
        rw [h2]
        rfl
      rw [he]
      exact ⟨200, _, _, rfl⟩
    · by_cases h3 : req.path = "/badRequest"
      · have he : onRequest req = badRequest (augmentReq req) := by
          unfold onRequest
          rw [h3]
          rfl
        by_cases hv : getQ (augmentReq req).query "valid" = some "true"
        · rw [he, badRequest_valid (augmentReq req) hv]
          exact ⟨200, _, _, rfl⟩
        · rw [he, badRequest_invalid (augmentReq req) hv]
          exact ⟨400, _, _, rfl⟩
      · have he : onRequest req = notFound (augmentReq req) := by
          unfold onRequest
          rw [selectedHandler_miss req.path h1 h2 h3]
        rw [he]
        exact ⟨404, _, _, rfl⟩

/-- Claim C1: on path `/badRequest`, the response status is 200 exactly when
the flattened query maps `valid` to the string `true`; otherwise the status
is 400 and the JSON body carries the field `id` with value `badRequest`. -/
theorem claim_C1_badRequest (req : Request) (hpath : req.path = "/badRequest") :
    (getQ (fromEntries req.searchParams) "valid" = some "true" →
      statusOf (onRequest req) = some 200) ∧
    (getQ (fromEntries req.searchParams) "valid" ≠ some "true" →
      statusOf (onRequest req) = some 400 ∧
      strContains (bodyOf (onRequest req)) "\"id\":\"badRequest\"" = true) := by
  have he : onRequest req = badRequest (augmentReq req) := by
    unfold onRequest
    rw [hpath]
    rfl
  have hquery : (augmentReq req).query = fromEntries req.searchParams := rfl
  constructor
  · intro hv
    rw [he, badRequest_valid (augmentReq req) (by rw [hquery]; exact hv)]
    rfl
  · intro hv
    rw [he, badRequest_invalid (augmentReq req) (by rw [hquery]; exact hv)]
    refine ⟨rfl, ?_⟩
    rw [bodyOf_respondJSON]
    decide

/-- Witness for C1 at two concrete requests: `valid=true` yields 200, the
bare path yields 400 with the `badRequest` id in the body. -/
theorem claim_C1_badRequest_witness :
    statusOf (onRequest ⟨"GET", "/badRequest", [("valid", "true")]⟩) = some 200 ∧
    statusOf (onRequest ⟨"GET", "/badRequest", []⟩) = some 400 ∧
    strContains (bodyOf (onRequest ⟨"GET", "/badRequest", []⟩))
      "\"id\":\"badRequest\"" = true :=
  ⟨(claim_C1_badRequest ⟨"GET", "/badRequest", [("valid", "true")]⟩ rfl).1 (by decide),
   (claim_C1_badRequest ⟨"GET", "/badRequest", []⟩ rfl).2 (by decide)⟩

/-- Claim C2: any path other than `/`, `/success`, `/badRequest` is
dispatched to the not-found handler, yielding status 404 and a body carrying
the field `id` with value `notFound`; the lookup is exact string equality. -/
theorem claim_C2_notFound (req : Request) (h1 : req.path ≠ "/")
    (h2 : req.path ≠ "/success") (h3 : req.path ≠ "/badRequest") :
    onRequest req = notFound (augmentReq req) ∧
    statusOf (onRequest req) = some 404 ∧
    strContains (bodyOf (onRequest req)) "\"id\":\"notFound\"" = true := by
  have he : onRequest req = notFound (augmentReq req) := by
    unfold onRequest
    rw [selectedHandler_miss req.path h1 h2 h3]
  refine ⟨he, ?_, ?_⟩
  · rw [he]
    rfl
  · rw [he]
    show strContains (bodyOf (respondJSON (augmentReq req) 404 _)) _ = true
    rw [bodyOf_respondJSON]
    decide

/-- Witness for C2: `/Success` (case difference) and `/success/`
(trailing slash) both resolve to 404 with the `notFound` id. -/
theorem claim_C2_notFound_witness :
    (statusOf (onRequest ⟨"GET", "/Success", []⟩) = some 404 ∧
      strContains (bodyOf (onRequest ⟨"GET", "/Success", []⟩))
        "\"id\":\"notFound\"" = true) ∧
    statusOf (onRequest ⟨"GET", "/success/", []⟩) = some 404 :=
  ⟨⟨(claim_C2_notFound ⟨"GET", "/Success", []⟩ (by decide) (by decide) (by decide)).2.1,
    (claim_C2_notFound ⟨"GET", "/Success", []⟩ (by decide) (by decide) (by decide)).2.2⟩,
   (claim_C2_notFound ⟨"GET", "/success/", []⟩ (by decide) (by decide) (by decide)).2.1⟩

/-- Counterexample to claim C3 as stated: on a concrete request to
`/success` the body does not carry a `message` field equal to
`This is a successful response.` with a trailing period — the source string
has no period. -/
theorem claim_C3_counterexample :
    ¬ (statusOf (onRequest ⟨"GET", "/success", []⟩) = some 200 ∧
       strContains (bodyOf (onRequest ⟨"GET", "/success", []⟩))
         "\"message\":\"This is a successful response.\"" = true) := by
  decide

/-- Claim C3 as amended: on path `/success` the status is 200 and the body
is exactly the JSON object whose `message` field is the string
`This is a successful response` (no trailing period). -/
theorem claim_C3_success (req : Request) (hpath : req.path = "/success") :
    statusOf (onRequest req) = some 200 ∧
    bodyOf (onRequest req) =
      "\x7b\"message\":\"This is a successful response\"\x7d" := by
  have he : onRequest req = success (augmentReq req) := by
    unfold onRequest
    rw [hpath]
    rfl
  rw [he]
  refine ⟨rfl, ?_⟩
  show bodyOf (respondJSON (augmentReq req) 200 _) = _
  rw [bodyOf_respondJSON]
  decide

/-- Witness for the amended C3 at a concrete request. -/
theorem claim_C3_success_witness :
    statusOf (onRequest ⟨"GET", "/success", []⟩) = some 200 ∧
    bodyOf (onRequest ⟨"GET", "/success", []⟩) =
      "\x7b\"message\":\"This is a successful response\"\x7d" :=
  claim_C3_success ⟨"GET", "/success", []⟩ rfl

/-- Claim C4: every response emitted by `respondJSON` has content type
`application/json` and a content length equal to the utf8 byte length of the
body it writes. -/
theorem claim_C4_respondJSON (r : AugRequest) (s : Nat) (o : JsonBody) :
    headersOf (respondJSON r s o) =
      some ⟨"application/json", byteLength (bodyOf (respondJSON r s o))⟩ := by
  rw [bodyOf_respondJSON]
  rfl

/-- Witness for C4 at a concrete payload with a multi-byte character:
the content length counts utf8 bytes, which exceeds the character count. -/
theorem claim_C4_respondJSON_witness :
    headersOf (respondJSON ⟨"GET", "/success", []⟩ 200 ⟨"héllo", none⟩) =
      some ⟨"application/json",
        byteLength (bodyOf (respondJSON ⟨"GET", "/success", []⟩ 200 ⟨"héllo", none⟩))⟩ :=
  claim_C4_respondJSON ⟨"GET", "/success", []⟩ 200 ⟨"héllo", none⟩

/-- The byte length used for content length is a utf8 byte count, not a
character count: a two-byte character makes them differ. -/
theorem byteLength_counts_bytes :
    byteLength "héllo" = 6 ∧ "héllo".length = 5 := by decide

theorem getQ_setEntry (acc : List (String × String)) (k₀ v₀ k : String) :
    getQ (setEntry acc k₀ v₀) k = if k₀ = k then some v₀ else getQ acc k := by
  induction acc with
  | nil => rfl
  | cons hd tl ih =>
    obtain ⟨k', v'⟩ := hd
    by_cases h1 : k' = k₀
    · subst h1
      simp only [setEntry, if_pos rfl, getQ]
      by_cases h2 : k' = k <;> simp [getQ, h2]
    · simp only [setEntry, if_neg h1, getQ]
      rw [ih]
      by_cases h2 : k' = k
      · subst h2
        have h3 : ¬(k₀ = k') := fun e => h1 e.symm
        simp [h3]
      · simp [h2]

theorem getQ_fromEntries_loop (l : List (String × String)) :
    ∀ (acc : List (String × String)) (k : String),
      getQ (l.foldl (fun a kv => setEntry a kv.1 kv.2) acc) k =
        match lastVal l k with
        | some v => some v
        | none => getQ acc k := by
  induction l with
  | nil =>
    intro acc k
    rfl
  | cons hd tl ih =>
    intro acc k
    obtain ⟨k₀, v₀⟩ := hd
    rw [List.foldl_cons, ih (setEntry acc k₀ v₀) k]
    cases hl : lastVal tl k with
    | some v => simp [lastVal, hl]
    | none =>
      rw [getQ_setEntry]
      simp only [lastVal, hl]
      by_cases h : k₀ = k <;> simp [h]

theorem countKey_setEntry (acc : List (String × String)) (k₀ v₀ k : String) :
    countKey (setEntry acc k₀ v₀) k =
      if k₀ = k then max (countKey acc k) 1 else countKey acc k := by
  induction acc with
  | nil => by_cases h : k₀ = k <;> simp [countKey, setEntry, h]
  | cons hd tl ih =>
    obtain ⟨k', v'⟩ := hd
    by_cases h1 : k' = k₀
    · subst h1
      by_cases h2 : k' = k
      · simp only [setEntry, if_pos rfl, countKey, if_pos h2]
        omega
      · simp [setEntry, countKey, h2]
    · simp only [setEntry, if_neg h1, countKey, ih]
      by_cases h2 : k₀ = k
      · by_cases h3 : k' = k
        · exact absurd (h3.trans h2.symm) h1
        · simp only [if_pos h2, if_neg h3]
          omega
      · by_cases h3 : k' = k
        · simp only [if_neg h2, if_pos h3]
        · simp only [if_neg h2, if_neg h3]

theorem countKey_fromEntries_loop (l : List (String × String)) :
    ∀ (acc : List (String × String)) (k : String),
      countKey (l.foldl (fun a kv => setEntry a kv.1 kv.2) acc) k =
        if l.any (fun kv => kv.1 == k) then max (countKey acc k) 1
        else countKey acc k := by
  induction l with
  | nil =>
    intro acc k
    simp
  | cons hd tl ih =>
    intro acc k
    obtain ⟨k₀, v₀⟩ := hd
    rw [List.foldl_cons, ih (setEntry acc k₀ v₀) k, countKey_setEntry]
    by_cases h2 : k₀ = k
    · by_cases h3 : tl.any (fun kv => kv.1 == k) <;> simp [h2, h3] <;> omega
    · by_cases h3 : tl.any (fun kv => kv.1 == k) <;> simp [h2, h3]

/-- Claim C6: when the raw query entries carry a key, the flattened query
object the dispatcher stores on the request holds that key exactly once,
bound to the value of its last occurrence. -/
theorem claim_C6_lastWins (req : Request) (k : String)
    (h : req.searchParams.any (fun kv => kv.1 == k) = true) :
    countKey (augmentReq req).query k = 1 ∧
    getQ (augmentReq req).query k = lastVal req.searchParams k := by
  have hq : (augmentReq req).query = fromEntries req.searchParams := rfl
  rw [hq]
  constructor
  · unfold fromEntries
    rw [countKey_fromEntries_loop req.searchParams [] k]
    simp [h, countKey]
  · unfold fromEntries
    rw [getQ_fromEntries_loop req.searchParams [] k]
    cases hl : lastVal req.searchParams k <;> simp [getQ]

/-- Witness for C6 at a request whose query repeats `valid`: the flattened
object holds it once, with the last value. -/
theorem claim_C6_lastWins_witness :
    countKey (augmentReq ⟨"GET", "/badRequest",
      [("valid", "x"), ("valid", "true")]⟩).query "valid" = 1 ∧
    getQ (augmentReq ⟨"GET", "/badRequest",
        [("valid", "x"), ("valid", "true")]⟩).query "valid" =
      lastVal [("valid", "x"), ("valid", "true")] "valid" :=
  claim_C6_lastWins ⟨"GET", "/badRequest", [("valid", "x"), ("valid", "true")]⟩
    "valid" (by decide)

/-- Claim C7: the dispatcher hands the request to exactly one handler and
writes nothing itself, and that handler emits exactly one response: one
`writeHead`, one body `write`, one `end`, in that order. -/
theorem claim_C7_one_response (req : Request) :
    onRequest req = selectedHandler req.path (augmentReq req) ∧
    ∃ s hd c, onRequest req =
      [RespEvent.writeHead s hd, RespEvent.write c, RespEvent.endResp] :=
  ⟨rfl, onRequest_shape req⟩

/-- Claim C8: serving the same request twice in a row yields identical
responses; the server threads no state between requests, so the response is
a function of the request alone. -/
theorem claim_C8_idempotent (r : Request) (rs : List Request) :
    serveMany (r :: r :: rs) = onRequest r :: onRequest r :: serveMany rs ∧
    (serveMany [r, r])[0]? = (serveMany [r, r])[1]? :=
  ⟨rfl, rfl⟩

/-- Claim C9: the response never depends on the request method — two
requests agreeing on path and query entries but differing in method get the
same response. -/
theorem claim_C9_method_independent (m₁ m₂ p : String)
    (sp : List (String × String)) :
    onRequest ⟨m₁, p, sp⟩ = onRequest ⟨m₂, p, sp⟩ := by
  by_cases h1 : p = "/"
  · subst h1
    rfl
  · by_cases h2 : p = "/success"
    · subst h2
      rfl
    · by_cases h3 : p = "/badRequest"
      · subst h3
        by_cases hv : getQ (fromEntries sp) "valid" = some "true"
        · show badRequest (augmentReq ⟨m₁, _, sp⟩) =
              badRequest (augmentReq ⟨m₂, _, sp⟩)
          rw [badRequest_valid _ hv, badRequest_valid _ hv]
          rfl
        · show badRequest (augmentReq ⟨m₁, _, sp⟩) =
              badRequest (augmentReq ⟨m₂, _, sp⟩)
          rw [badRequest_invalid _ hv, badRequest_invalid _ hv]
          rfl
      · show selectedHandler p (augmentReq ⟨m₁, p, sp⟩) =
            selectedHandler p (augmentReq ⟨m₂, p, sp⟩)
        rw [selectedHandler_miss p h1 h2 h3]
        rfl

/-- Claim C10: a 200 answer on `/badRequest` carries only the `message`
field and no `id` field, and across the JSON handlers the body carries an
`id` field exactly when the status is 400 or 404. -/
theorem claim_C10_id_iff_error (req : Request) (areq : AugRequest)
    (h : AugRequest → List RespEvent)
    (hpath : req.path = "/badRequest")
    (hv : getQ (fromEntries req.searchParams) "valid" = some "true")
    (hh : h = success ∨ h = badRequest ∨ h = notFound) :
    (statusOf (onRequest req) = some 200 ∧
      bodyOf (onRequest req) =
        stringifyBody ⟨"This request has the required parameters", none⟩) ∧
    (strContains (bodyOf (h areq)) "\"id\":" = true ↔
      (statusOf (h areq) = some 400 ∨ statusOf (h areq) = some 404)) := by
  constructor
  · have he : onRequest req = badRequest (augmentReq req) := by
      unfold onRequest
      rw [hpath]
      rfl
    rw [he, badRequest_valid (augmentReq req) hv]
    exact ⟨rfl, bodyOf_respondJSON _ _ _⟩
  · rcases hh with hh | hh | hh
    · subst hh
      have hs : success areq =
          respondJSON areq 200 ⟨"This is a successful response", none⟩ := rfl
      rw [hs, bodyOf_respondJSON, statusOf_respondJSON]
      decide
    · subst hh
      by_cases hv2 : getQ areq.query "valid" = some "true"
      · rw [badRequest_valid areq hv2, bodyOf_respondJSON, statusOf_respondJSON]
        decide
      · rw [badRequest_invalid areq hv2, bodyOf_respondJSON, statusOf_respondJSON]
        decide
    · subst hh
      have hs : notFound areq =
          respondJSON areq 404
            ⟨"The page you are looking for was not found.", some "notFound"⟩ := rfl
      rw [hs, bodyOf_respondJSON, statusOf_respondJSON]
      decide

/-- Witness for C10: the concrete `/badRequest?valid=true` request gets a
200 body with no `id` field, and the concrete `badRequest` handler run on
that request satisfies the id-iff-error equivalence. -/
theorem claim_C10_id_iff_error_witness :
    (statusOf (onRequest ⟨"GET", "/badRequest", [("valid", "true")]⟩) = some 200 ∧
      bodyOf (onRequest ⟨"GET", "/badRequest", [("valid", "true")]⟩) =
        stringifyBody ⟨"This request has the required parameters", none⟩) ∧
    (strContains
        (bodyOf (badRequest ⟨"GET", "/badRequest", [("valid", "true")]⟩))
        "\"id\":" = true ↔
      (statusOf (badRequest ⟨"GET", "/badRequest", [("valid", "true")]⟩) =
          some 400 ∨
        statusOf (badRequest ⟨"GET", "/badRequest", [("valid", "true")]⟩) =
          some 404)) :=
  claim_C10_id_iff_error ⟨"GET", "/badRequest", [("valid", "true")]⟩
    ⟨"GET", "/badRequest", [("valid", "true")]⟩ badRequest rfl (by decide)
    (Or.inr (Or.inl rfl))
